import Mathlib

/-!
# Verification of the TG-premium bot core

Shallow embedding of the bot's core components, translated from the
JavaScript source:

* `src/middlewares/floodControl.js` — sliding-window rate limiter
  (the Admission Controller of the spec);
* `src/commands/users/help.js` (second unit: the `isAdmin` middleware) —
  permission classifier / admin gate;
* `src/commands/admins/broadcast.js` — broadcast dispatcher;
* `src/commands/admins/shutdown.js` — owner-only shutdown command;
* `src/utils/fileHelper.js` (second unit: the `Logger` class) — capped
  log sink.

Machine integers are modelled as `Nat`/`Int` (Telegram user ids are `Int`,
timestamps in milliseconds are `Nat`).  Asynchronous effects (replies, log
appends, process exit) are modelled as explicit effect lists; `try`/`catch`
blocks are modelled by explicit error-simulation parameters that select the
failure path the runtime could take.
-/

/-- Structured log records written through `logger.log` in the source.
Each constructor corresponds to one `type:` tag appearing in the code,
carrying the fields the claims refer to. -/
inductive LogRecord where
  /-- `type: 'flood_control_triggered'` (floodControl.js line 43). -/
  | floodTriggered (userId : Int) (requestCount maxRequests remainingCooldown : Nat)
  /-- `type: 'middleware_error'` (floodControl.js line 76, isAdmin line 219). -/
  | middlewareError (middleware : String) (userId : Option Int)
  /-- `type: 'unauthorized_access'` (isAdmin middleware, help.js unit line 197). -/
  | unauthorizedAccess (userId : Int) (command : String)
  /-- `type: 'admin_command'` (broadcast.js line 115, shutdown.js line 81). -/
  | adminCommand (command : String) (userId : Int)
  /-- `type: 'admin_command_error'` — the outer catch of a command handler
  (broadcast.js line 251, shutdown.js line 135). -/
  | adminCommandError (command : String) (userId : Option Int)
  /-- `type: 'broadcast_delivery_failed'` (broadcast.js line 78). -/
  | deliveryFailed (userId : Int) (error : String)
  /-- `type: 'broadcast_completed'` (broadcast.js line 235). -/
  | broadcastCompleted (adminId : Int) (totalUsers successCount failureCount
      completionTime : Nat) (message : String)
  /-- `type: 'system', action: 'bot_shutdown_initiated'` (shutdown.js line 112). -/
  | systemShutdown (adminId : Int)
deriving Repr, DecidableEq

/-- Outcome of a Telegraf middleware: `proceed` means `next()` was called
(the rest of the pipeline, ending in the handler, runs); `blocked` means the
middleware returned without calling `next()`. -/
inductive MwResult where
  | proceed
  | blocked
deriving Repr, DecidableEq

/-! ## Admission Controller — `src/middlewares/floodControl.js`

The per-user sliding-window core (lines 26–67 of floodControl.js) reads the
user's stored timestamp list, filters out entries older than the window,
rejects when the pruned count reaches `maxRequests` (leaving the stored list
untouched), and otherwise appends `now` and stores the pruned list back. -/

/-- `requests.filter(timestamp => now - timestamp < timeWindow)`
(floodControl.js line 34).  Nat subtraction agrees with the JS number
subtraction for timestamps `≤ now`, which is the reachable case. -/
def pruneWindow (now timeWindow : Nat) (ts : List Nat) : List Nat :=
  ts.filter (fun t => now - t < timeWindow)

/-- `Math.min(...validRequests)` (floodControl.js line 39): the minimum of a
list.  The `[]` case returns 0; in the source it would be `Infinity`, but it
is unreachable on the rejection path whenever `maxRequests > 0`. -/
def jsMin : List Nat → Nat
  | [] => 0
  | t :: ts => ts.foldl min t

/-- Result of one per-user admission check. -/
structure AdmissionResult where
  /-- `true` exactly when the middleware proceeds to `next()` for this user. -/
  allowed : Bool
  /-- `remainingTime` of the cooldown reply, on rejection (line 40). -/
  retryAfter : Option Nat
  /-- The timestamp list stored in the map after the check. -/
  stored : List Nat
deriving Repr, DecidableEq

/-- The per-user admission check of floodControl.js lines 31–67: prune, then
either reject (stored list unchanged, `remainingTime = Math.ceil((timeWindow -
(now - oldest)) / 1000)`) or record `now` and allow. -/
def admissionCheck (maxRequests timeWindow now : Nat) (stored : List Nat) :
    AdmissionResult :=
  let valid := pruneWindow now timeWindow stored
  if maxRequests ≤ valid.length then
    let oldest := jsMin valid
    let remainingTime := (timeWindow - (now - oldest) + 999) / 1000
    { allowed := false, retryAfter := some remainingTime, stored := stored }
  else
    { allowed := true, retryAfter := none, stored := valid ++ [now] }

/-- Replay a sequence of admission checks for one user, starting from a
stored list `s`.  Returns the final stored list together with the timestamps
of the checks that were allowed, in order. -/
def runAdmissions (maxRequests timeWindow : Nat) :
    List Nat → List Nat → List Nat × List Nat
  | [], s => (s, [])
  | now :: rest, s =>
    let r := admissionCheck maxRequests timeWindow now s
    let p := runAdmissions maxRequests timeWindow rest r.stored
    (p.1, (if r.allowed then [now] else []) ++ p.2)

/-- `t` lies in the trailing window of length `w` ending at `T`,
i.e. `t ∈ (T - w, T]`. -/
def inWindow (w T t : Nat) : Bool :=
  decide (t ≤ T) && decide (T < t + w)

/-! ### The map-level middleware -/

/-- The `userRequests` map (floodControl.js line 5), modelled as an
association list from user id to timestamp list. -/
abbrev FloodState := List (Int × List Nat)

/-- `userRequests.has(userId)`. -/
def mapHas (st : FloodState) (k : Int) : Bool :=
  st.any (fun p => p.1 == k)

/-- `userRequests.get(userId)` (defaulting to `[]` when absent, which is
unobservable because the source always `set`s `[]` first). -/
def mapGet (st : FloodState) (k : Int) : List Nat :=
  ((st.find? (fun p => p.1 == k)).map Prod.snd).getD []

/-- `userRequests.set(userId, v)`. -/
def mapSet (st : FloodState) (k : Int) (v : List Nat) : FloodState :=
  if mapHas st k then st.map (fun p => if p.1 == k then (k, v) else p)
  else st ++ [(k, v)]

/-- The configuration surface read by the middlewares
(`config.OWNER_ID`, `config.ADMINS`, `config.FLOOD_CONTROL`). -/
structure BotConfig where
  ownerId : Int
  admins : List Int
  maxRequests : Nat
  timeWindow : Nat
deriving Repr, DecidableEq

/-- floodControl.js line 18:
`userId === config.OWNER_ID || (config.ADMINS && config.ADMINS.includes(userId))`. -/
def isExemptUser (cfg : BotConfig) (uid : Int) : Bool :=
  uid == cfg.ownerId || cfg.admins.contains uid

/-- The full `floodControl` middleware (floodControl.js lines 11–88).

* `fromId? = none` models an update without `ctx.from`: line 13
  (`ctx.from.id`) then throws, the `catch` block logs a
  `middleware_error` and calls `next()` (fail-open).
* `replyOk = false` models the cooldown `ctx.reply` (line 54) rejecting:
  the `catch` block again logs and calls `next()`.

Returns the middleware outcome, the new `userRequests` state and the log
records emitted. -/
def floodControl (cfg : BotConfig) (fromId? : Option Int) (replyOk : Bool)
    (now : Nat) (st : FloodState) : MwResult × FloodState × List LogRecord :=
  match fromId? with
  | none => (.proceed, st, [.middlewareError "floodControl" none])
  | some uid =>
    if isExemptUser cfg uid then (.proceed, st, [])
    else
      let st1 := if mapHas st uid then st else mapSet st uid []
      let requests := mapGet st1 uid
      let r := admissionCheck cfg.maxRequests cfg.timeWindow now requests
      if r.allowed then (.proceed, mapSet st1 uid r.stored, [])
      else
        let triggered : LogRecord :=
          .floodTriggered uid (pruneWindow now cfg.timeWindow requests).length
            cfg.maxRequests (r.retryAfter.getD 0)
        if replyOk then (.blocked, st1, [triggered])
        else (.proceed, st1, [triggered, .middlewareError "floodControl" (some uid)])

/-- Predicate: processing this request makes the middleware body throw
(the two throw sources modelled above). -/
def floodControlThrows (cfg : BotConfig) (fromId? : Option Int) (replyOk : Bool)
    (now : Nat) (st : FloodState) : Bool :=
  match fromId? with
  | none => true
  | some uid =>
    if isExemptUser cfg uid then false
    else
      let st1 := if mapHas st uid then st else mapSet st uid []
      let requests := mapGet st1 uid
      let r := admissionCheck cfg.maxRequests cfg.timeWindow now requests
      if r.allowed then false else !replyOk

/-- Replay a trace of inbound requests `(userId, now)` through the
middleware (all replies succeeding), returning the final map state. -/
def runFloodTrace (cfg : BotConfig) : List (Int × Nat) → FloodState → FloodState
  | [], st => st
  | (uid, now) :: rest, st =>
    runFloodTrace cfg rest (floodControl cfg (some uid) true now st).2.1

/-! ## Permission Classifier — the `isAdmin` middleware
(second unit of `src/commands/users/help.js`, lines 178–237) -/

/-- The fixed denial reply of the `isAdmin` middleware (lines 206–211). -/
def accessDeniedMessage : String :=
  "❌ <b>Access Denied</b>\n\nThis command is only available to administrators.\nIf you believe this is an error, please contact the bot owner."

/-- Output of the `isAdmin` middleware: pipeline outcome, the
`ctx.isOwner` / `ctx.isAdmin` flags it sets, and the emitted effects. -/
structure AdminGateOutput where
  result : MwResult
  isOwnerFlag : Bool
  isAdminFlag : Bool
  logs : List LogRecord
  replies : List String
deriving Repr, DecidableEq

/-- The `isAdmin` middleware body (lines 178–213): owner branch, admin
branch, otherwise log `unauthorized_access`, send the fixed denial reply and
stop (no `next()`). The flags start `undefined`, modelled as `false`. -/
def isAdmin (cfg : BotConfig) (uid : Int) (command : String) : AdminGateOutput :=
  if uid == cfg.ownerId then
    { result := .proceed, isOwnerFlag := true, isAdminFlag := true,
      logs := [], replies := [] }
  else if cfg.admins.contains uid then
    { result := .proceed, isOwnerFlag := false, isAdminFlag := true,
      logs := [], replies := [] }
  else
    { result := .blocked, isOwnerFlag := false, isAdminFlag := false,
      logs := [.unauthorizedAccess uid command],
      replies := [accessDeniedMessage] }

/-- The router composition `bot.command(command.name, isAdmin,
command.execute)` (main unit, line 134): the guarded handler runs exactly
when the middleware proceeds.  Returns whether the handler body ran,
together with the accumulated logs and replies. -/
def guardedExecute (cfg : BotConfig) (uid : Int) (command : String)
    (handlerLogs : List LogRecord) (handlerReplies : List String) :
    Bool × List LogRecord × List String :=
  let o := isAdmin cfg uid command
  match o.result with
  | .proceed => (true, o.logs ++ handlerLogs, o.replies ++ handlerReplies)
  | .blocked => (false, o.logs, o.replies)

/-! ## Shutdown command — `src/commands/admins/shutdown.js` -/

/-- Observable effects of a command handler, in order of occurrence. -/
inductive Effect where
  | reply (text : String)
  | logged (r : LogRecord)
  | exitProcess
deriving Repr, DecidableEq

/-- The denial reply of the shutdown handler (shutdown.js lines 72–76). -/
def shutdownDenialMessage : String :=
  "❌ <b>Access Denied</b>\n\nOnly the bot owner can shutdown the bot."

/-- The shutdown confirmation reply (lines 92–98), content abstracted. -/
def shutdownConfirmationMessage : String := "🛑 Bot Shutdown Confirmation"

/-- The final shutdown reply (lines 101–109), content abstracted. -/
def shutdownFinalMessage : String := "🛑 Shutting down bot..."

/-- The `execute` handler of shutdown.js (lines 65–153): any caller whose id
differs from `config.OWNER_ID` gets the fixed denial reply and the handler
returns — emitting no log record; the owner gets the full shutdown sequence
ending in `process.exit(0)`. -/
def shutdownExecute (ownerId : Int) (uid : Int) : List Effect :=
  if uid != ownerId then
    [.reply shutdownDenialMessage]
  else
    [.logged (.adminCommand "/shutdown" uid),
     .reply shutdownConfirmationMessage,
     .reply shutdownFinalMessage,
     .logged (.systemShutdown uid),
     .exitProcess]

/-! ## Log sink — the `Logger` class
(second unit of `src/utils/fileHelper.js`, lines 326–392) -/

namespace Logger

/-- `this.maxLogsPerFile = 10000` (line 328). -/
def maxLogsPerFile : Nat := 10000

/-- `Logger.log` (lines 352–392) as a transformation of the stored record
list: push the entry, then `logs.slice(-maxLogsPerFile)` when the length
exceeds the cap (`slice(-n)` keeps the last `n` elements). -/
def log (logs : List α) (entry : α) : List α :=
  let l := logs ++ [entry]
  if maxLogsPerFile < l.length then l.drop (l.length - maxLogsPerFile) else l

end Logger

/-! ## Broadcast Dispatcher — `src/commands/admins/broadcast.js`

The dispatch engine of `execute` (lines 128–245): snapshot the recipient
list, partition it into batches of `batchSize` (hardcoded to 30 at line
152), process batches sequentially, and within a batch give every recipient
a final outcome via `sendMessageToUser` (per-recipient `try`/`catch`,
lines 70–87).  Within a batch the sends run concurrently
(`Promise.all`); since each send contributes exactly one counter increment
and one optional log record, and the final tally and log multiset are
order-independent, the fan-out is modelled as a sequential fold in batch
order.  After each batch the progress `editMessageText` runs inside its own
`try`/`catch` (lines 197–207) whose failure is swallowed. -/

/-- `const batchSize = 30` (broadcast.js line 152). -/
def broadcastBatchSize : Nat := 30

/-- The batching loop of broadcast.js lines 155–157:
`for (let i = 0; i < users.length; i += batchSize)
   batches.push(users.slice(i, i + batchSize))`.
The `0` case guards termination; it is unreachable in the source, where
`batchSize` is the constant 30 (a zero step would not terminate). -/
def mkBatches : Nat → List α → List (List α)
  | _, [] => []
  | 0, _ :: _ => []
  | b + 1, u :: us =>
    (u :: us).take (b + 1) :: mkBatches (b + 1) ((u :: us).drop (b + 1))
termination_by _ l => l.length
decreasing_by simp [List.length_drop]; omega

/-- Mutable state of one broadcast job (broadcast.js lines 145–147 plus the
effect streams): the three counters, the recipients `sendMessageToUser` was
invoked for (in invocation order), the log records emitted, and the progress
snapshots successfully written by `editMessageText`
(delivered, failed, processed at the time of the edit). -/
structure BroadcastState where
  successCount : Nat
  failureCount : Nat
  processedCount : Nat
  sendCalls : List Int
  logs : List LogRecord
  progressEdits : List (Nat × Nat × Nat)
deriving Repr, DecidableEq

/-- The fields of a `BroadcastState` that the claims are about — everything
except the progress-edit stream. -/
def BroadcastState.core (s : BroadcastState) :
    Nat × Nat × Nat × List Int × List LogRecord :=
  (s.successCount, s.failureCount, s.processedCount, s.sendCalls, s.logs)

/-- `sendMessageToUser` (broadcast.js lines 70–87): the transport outcome is
`sendOk uid`; on failure the `catch` block logs a
`broadcast_delivery_failed` record carrying the recipient id and
`error.message` (given by `reason uid`) and returns `false`. -/
def sendMessageToUser (sendOk : Int → Bool) (reason : Int → String)
    (uid : Int) : Bool × List LogRecord :=
  if sendOk uid then (true, [])
  else (false, [.deliveryFailed uid (reason uid)])

/-- One recipient's contribution inside a batch (broadcast.js lines
167–184): call `sendMessageToUser`, then bump `successCount` or
`failureCount` and `processedCount`. -/
def processRecipient (sendOk : Int → Bool) (reason : Int → String)
    (s : BroadcastState) (uid : Int) : BroadcastState :=
  let r := sendMessageToUser sendOk reason uid
  { successCount := s.successCount + (if r.1 then 1 else 0),
    failureCount := s.failureCount + (if r.1 then 0 else 1),
    processedCount := s.processedCount + 1,
    sendCalls := s.sendCalls ++ [uid],
    logs := s.logs ++ r.2,
    progressEdits := s.progressEdits }

/-- Full fan-out/fan-in of one batch (`Promise.all(batchPromises)`,
line 187), modelled in batch order. -/
def processBatch (sendOk : Int → Bool) (reason : Int → String)
    (s : BroadcastState) (batch : List Int) : BroadcastState :=
  batch.foldl (processRecipient sendOk reason) s

/-- The sequential batch loop (broadcast.js lines 163–213).  `editOk i`
tells whether the progress `editMessageText` after batch `i` succeeds; when
it throws, the `catch` at line 205 swallows the error and the loop
continues.  The inter-batch `setTimeout` delay has no observable effect in
this model. -/
def runBatches (sendOk : Int → Bool) (reason : Int → String)
    (editOk : Nat → Bool) : List (List Int) → Nat → BroadcastState → BroadcastState
  | [], _, s => s
  | b :: bs, idx, s =>
    let s1 := processBatch sendOk reason s b
    let s2 :=
      if editOk idx then
        { s1 with progressEdits :=
            s1.progressEdits ++ [(s1.successCount, s1.failureCount, s1.processedCount)] }
      else s1
    runBatches sendOk reason editOk bs (idx + 1) s2

/-- The initial job state (broadcast.js lines 145–147). -/
def initialBroadcastState : BroadcastState :=
  { successCount := 0, failureCount := 0, processedCount := 0,
    sendCalls := [], logs := [], progressEdits := [] }

/-- The broadcast dispatch of `execute` (broadcast.js lines 124–258),
parametric in the batch size (the source instantiates
`broadcastBatchSize = 30`).  With no recipients the handler returns at line
128 ("No users found") before any batch, counter or log record is created.
Otherwise it runs every batch, then performs the *final*
`ctx.telegram.editMessageText` (lines 226–232), which — unlike the per-batch
progress edit — is NOT wrapped in its own `try`/`catch`.  `finalEditOk`
tells whether that final status-message edit succeeds:

* when it succeeds, the single `broadcast_completed` summary record
  (lines 235–245) is appended, carrying the total recipient count, both
  counters, the elapsed `completionTime` and the broadcast message text;
* when it throws, control reaches the outer `catch` (line 247): the
  `broadcast_completed` record is never logged, and an
  `admin_command_error` record is logged instead (lines 251–258). -/
def broadcastExecute (batchSize : Nat) (recipients : List Int)
    (message : String) (sendOk : Int → Bool) (reason : Int → String)
    (editOk : Nat → Bool) (finalEditOk : Bool) (adminId : Int)
    (completionTime : Nat) : BroadcastState :=
  if recipients.isEmpty then initialBroadcastState
  else
    let s := runBatches sendOk reason editOk (mkBatches batchSize recipients)
      0 initialBroadcastState
    if finalEditOk then
      { s with logs := s.logs ++
          [.broadcastCompleted adminId recipients.length s.successCount
            s.failureCount completionTime message] }
    else
      { s with logs := s.logs ++
          [.adminCommandError "/broadcast" (some adminId)] }

/-- Recognizer for `broadcast_delivery_failed` records. -/
def isDeliveryFailedRec : LogRecord → Bool
  | .deliveryFailed _ _ => true
  | _ => false

/-- Recognizer for `broadcast_completed` records. -/
def isBroadcastCompletedRec : LogRecord → Bool
  | .broadcastCompleted _ _ _ _ _ _ => true
  | _ => false

/-! ## Helper lemmas -/

theorem foldl_min_le_self : ∀ (ts : List Nat) (a : Nat), ts.foldl min a ≤ a
  | [], _ => le_refl _
  | t :: ts, a =>
    le_trans (foldl_min_le_self ts (min a t)) (min_le_left a t)

theorem foldl_min_le_mem : ∀ (ts : List Nat) (a : Nat), ∀ x ∈ ts, ts.foldl min a ≤ x
  | t :: ts, a, x, hx => by
    rcases List.mem_cons.mp hx with h | h
    · subst h
      exact le_trans (foldl_min_le_self ts (min a x)) (min_le_right a x)
    · exact foldl_min_le_mem ts (min a t) x h

theorem foldl_min_mem : ∀ (ts : List Nat) (a : Nat), ts.foldl min a = a ∨ ts.foldl min a ∈ ts
  | [], a => Or.inl rfl
  | t :: ts, a => by
    simp only [List.foldl_cons]
    rcases foldl_min_mem ts (min a t) with h | h
    · rcases min_choice a t with hm | hm
      · exact Or.inl (h.trans hm)
      · exact Or.inr (by rw [h, hm]; exact List.mem_cons_self _ _)
    · exact Or.inr (List.mem_cons_of_mem t h)

theorem jsMin_cons (t : Nat) (ts : List Nat) : jsMin (t :: ts) = ts.foldl min t := rfl

theorem jsMin_mem : ∀ (l : List Nat), l ≠ [] → jsMin l ∈ l
  | t :: ts, _ => by
    rw [jsMin_cons]
    rcases foldl_min_mem ts t with h | h
    · rw [h]; exact List.mem_cons_self _ _
    · exact List.mem_cons_of_mem t h

theorem jsMin_le : ∀ (l : List Nat), ∀ x ∈ l, jsMin l ≤ x
  | t :: ts, x, hx => by
    rw [jsMin_cons]
    rcases List.mem_cons.mp hx with h | h
    · subst h; exact foldl_min_le_self ts x
    · exact foldl_min_le_mem ts t x h

theorem admissionCheck_reject (maxRequests timeWindow now : Nat) (stored : List Nat)
    (hrej : maxRequests ≤ (pruneWindow now timeWindow stored).length) :
    admissionCheck maxRequests timeWindow now stored =
      { allowed := false,
        retryAfter := some ((timeWindow -
          (now - jsMin (pruneWindow now timeWindow stored)) + 999) / 1000),
        stored := stored } := by
  unfold admissionCheck
  rw [if_pos hrej]

theorem admissionCheck_allow (maxRequests timeWindow now : Nat) (stored : List Nat)
    (hallow : (pruneWindow now timeWindow stored).length < maxRequests) :
    admissionCheck maxRequests timeWindow now stored =
      { allowed := true, retryAfter := none,
        stored := pruneWindow now timeWindow stored ++ [now] } := by
  unfold admissionCheck
  rw [if_neg (by omega)]

theorem runAdmissions_cons (m w now : Nat) (rest S : List Nat) :
    runAdmissions m w (now :: rest) S =
      ((runAdmissions m w rest (admissionCheck m w now S).stored).1,
       (if (admissionCheck m w now S).allowed then [now] else []) ++
         (runAdmissions m w rest (admissionCheck m w now S).stored).2) := rfl

theorem mkBatches_flatten (b : Nat) : ∀ l : List α, (mkBatches (b + 1) l).flatten = l
  | [] => by simp [mkBatches]
  | u :: us => by
    rw [mkBatches, List.flatten_cons, mkBatches_flatten b ((u :: us).drop (b + 1)),
      List.take_append_drop]
termination_by l => l.length
decreasing_by simp [List.length_drop]; omega

theorem mkBatches_sizes (b : Nat) :
    ∀ l : List α, ∀ batch ∈ mkBatches (b + 1) l, batch ≠ [] ∧ batch.length ≤ b + 1
  | [] => by simp [mkBatches]
  | u :: us => by
    intro batch hb
    rw [mkBatches] at hb
    rcases List.mem_cons.mp hb with h | h
    · subst h
      exact ⟨by simp, List.length_take_le (b + 1) (u :: us)⟩
    · exact mkBatches_sizes b ((u :: us).drop (b + 1)) batch h
termination_by l => l.length
decreasing_by simp [List.length_drop]; omega

theorem processRecipient_core_congr (sendOk : Int → Bool) (reason : Int → String)
    (s s' : BroadcastState) (u : Int) (h : s.core = s'.core) :
    (processRecipient sendOk reason s u).core =
      (processRecipient sendOk reason s' u).core := by
  cases s; cases s'
  simp only [BroadcastState.core, Prod.mk.injEq] at h
  obtain ⟨e1, e2, e3, e4, e5⟩ := h
  subst e1; subst e2; subst e3; subst e4; subst e5
  rfl

theorem processBatch_core_congr (sendOk : Int → Bool) (reason : Int → String) :
    ∀ (batch : List Int) (s s' : BroadcastState), s.core = s'.core →
      (processBatch sendOk reason s batch).core =
        (processBatch sendOk reason s' batch).core
  | [], _, _, h => h
  | u :: us, s, s', h =>
    processBatch_core_congr sendOk reason us _ _
      (processRecipient_core_congr sendOk reason s s' u h)

theorem runBatches_core_congr (sendOk : Int → Bool) (reason : Int → String)
    (editOk editOk' : Nat → Bool) :
    ∀ (bs : List (List Int)) (idx idx' : Nat) (s s' : BroadcastState),
      s.core = s'.core →
      (runBatches sendOk reason editOk bs idx s).core =
        (runBatches sendOk reason editOk' bs idx' s').core
  | [], _, _, _, _, h => h
  | blk :: bs, idx, idx', s, s', h => by
    have h1 := processBatch_core_congr sendOk reason blk s s' h
    simp only [runBatches]
    apply runBatches_core_congr sendOk reason editOk editOk' bs (idx + 1) (idx' + 1)
    split <;> split <;> exact h1

theorem runBatches_noedit_eq_foldl (sendOk : Int → Bool) (reason : Int → String) :
    ∀ (bs : List (List Int)) (idx : Nat) (s : BroadcastState),
      runBatches sendOk reason (fun _ => false) bs idx s =
        bs.flatten.foldl (processRecipient sendOk reason) s
  | [], _, _ => rfl
  | blk :: bs, idx, s => by
    simp only [runBatches, List.flatten_cons, List.foldl_append]
    exact runBatches_noedit_eq_foldl sendOk reason bs (idx + 1) _

theorem foldl_processRecipient_spec (sendOk : Int → Bool) (reason : Int → String) :
    ∀ (l : List Int) (s : BroadcastState),
      (l.foldl (processRecipient sendOk reason) s).successCount =
          s.successCount + (l.filter (fun u => sendOk u)).length ∧
      (l.foldl (processRecipient sendOk reason) s).failureCount =
          s.failureCount + (l.filter (fun u => !sendOk u)).length ∧
      (l.foldl (processRecipient sendOk reason) s).processedCount =
          s.processedCount + l.length ∧
      (l.foldl (processRecipient sendOk reason) s).sendCalls = s.sendCalls ++ l ∧
      (l.foldl (processRecipient sendOk reason) s).logs = s.logs ++
          (l.filter (fun u => !sendOk u)).map
            (fun u => LogRecord.deliveryFailed u (reason u))
  | [], s => by simp
  | u :: l, s => by
    obtain ⟨h1, h2, h3, h4, h5⟩ :=
      foldl_processRecipient_spec sendOk reason l (processRecipient sendOk reason s u)
    simp only [List.foldl_cons]
    rw [h1, h2, h3, h4, h5]
    refine ⟨?_, ?_, ?_, ?_, ?_⟩ <;>
      by_cases hu : sendOk u <;>
        simp [processRecipient, sendMessageToUser, hu, List.filter_cons] <;>
        omega

theorem filter_length_partition (p : Int → Bool) :
    ∀ l : List Int, (l.filter p).length + (l.filter (fun u => !p u)).length = l.length
  | [] => rfl
  | u :: l => by
    have ih := filter_length_partition p l
    by_cases hu : p u <;> simp [hu] <;> omega

theorem mapSet_keys (st : FloodState) (k : Int) (v : List Nat) :
    ∀ k' ∈ (mapSet st k v).map Prod.fst, k' ∈ st.map Prod.fst ∨ k' = k := by
  intro k' hk'
  unfold mapSet at hk'
  split at hk'
  · rw [List.map_map] at hk'
    obtain ⟨p, hp, hval⟩ := List.mem_map.mp hk'
    simp only [Function.comp] at hval
    by_cases hpk : p.1 == k
    · right; rw [if_pos hpk] at hval; rw [← hval]
    · left; rw [if_neg hpk] at hval
      exact hval ▸ List.mem_map.mpr ⟨p, hp, rfl⟩
  · rw [List.map_append] at hk'
    rcases List.mem_append.mp hk' with h | h
    · exact Or.inl h
    · right; simpa using h

theorem floodControl_step_keys (cfg : BotConfig) (uid : Int) (replyOk : Bool)
    (now : Nat) (st : FloodState) :
    ∀ k ∈ ((floodControl cfg (some uid) replyOk now st).2.1).map Prod.fst,
      k ∈ st.map Prod.fst ∨ (k = uid ∧ isExemptUser cfg uid = false) := by
  intro k hk
  simp only [floodControl] at hk
  by_cases hex : isExemptUser cfg uid
  · rw [if_pos hex] at hk; exact Or.inl hk
  · rw [if_neg hex] at hk
    simp only [Bool.not_eq_true] at hex
    set st1 := if mapHas st uid then st else mapSet st uid [] with hst1
    have hkeys1 : ∀ k' ∈ st1.map Prod.fst, k' ∈ st.map Prod.fst ∨ k' = uid := by
      intro k' hk'
      rw [hst1] at hk'
      split at hk'
      · exact Or.inl hk'
      · exact mapSet_keys st uid [] k' hk'
    split at hk
    · rcases mapSet_keys st1 uid _ k hk with h | h
      · rcases hkeys1 k h with h' | h'
        · exact Or.inl h'
        · exact Or.inr ⟨h', hex⟩
      · exact Or.inr ⟨h, hex⟩
    · split at hk
      · rcases hkeys1 k hk with h | h
        · exact Or.inl h
        · exact Or.inr ⟨h, hex⟩
      · rcases hkeys1 k hk with h | h
        · exact Or.inl h
        · exact Or.inr ⟨h, hex⟩

theorem runFloodTrace_keys (cfg : BotConfig) :
    ∀ (calls : List (Int × Nat)) (st : FloodState),
      (∀ k ∈ st.map Prod.fst, isExemptUser cfg k = false) →
      ∀ k ∈ (runFloodTrace cfg calls st).map Prod.fst, isExemptUser cfg k = false
  | [], st, hst => hst
  | (uid, now) :: rest, st, hst => by
    apply runFloodTrace_keys cfg rest
    intro k hk
    rcases floodControl_step_keys cfg uid true now st k hk with h | h
    · exact hst k h
    · exact h.1 ▸ h.2

/-! ## Claim theorems -/

/-- C5: whenever the admission check rejects a non-exempt user's request
(pruned timestamp count ≥ `maxRequests`), it leaves the check result
disallowed, reports `retryAfterSeconds = ceil((windowDuration - (now -
oldestRemainingTimestamp)) / 1000)` where `oldestRemainingTimestamp` is the
minimum timestamp still inside the window, and leaves the user's stored
timestamp sequence unchanged (the rejected attempt is not recorded). -/
theorem admission_reject_spec (maxRequests timeWindow now : Nat)
    (stored : List Nat) (hmax : 0 < maxRequests)
    (hpast : ∀ t ∈ stored, t ≤ now)
    (hrej : maxRequests ≤ (pruneWindow now timeWindow stored).length) :
    (admissionCheck maxRequests timeWindow now stored).allowed = false ∧
    (admissionCheck maxRequests timeWindow now stored).stored = stored ∧
    ∃ oldest, oldest ∈ pruneWindow now timeWindow stored ∧
      (∀ t ∈ pruneWindow now timeWindow stored, oldest ≤ t) ∧
      (admissionCheck maxRequests timeWindow now stored).retryAfter =
        some ((timeWindow - (now - oldest) + 999) / 1000) := by
  have hne : pruneWindow now timeWindow stored ≠ [] := by
    intro h
    rw [h] at hrej
    simp at hrej
    omega
  rw [admissionCheck_reject maxRequests timeWindow now stored hrej]
  exact ⟨rfl, rfl,
    jsMin (pruneWindow now timeWindow stored),
    jsMin_mem _ hne, jsMin_le _, rfl⟩

theorem admission_reject_spec_witness :
    0 < 1 ∧ (∀ t ∈ [500], t ≤ 1000) ∧
      1 ≤ (pruneWindow 1000 60000 [500]).length ∧
    ((admissionCheck 1 60000 1000 [500]).allowed = false ∧
     (admissionCheck 1 60000 1000 [500]).stored = [500] ∧
     ∃ oldest, oldest ∈ pruneWindow 1000 60000 [500] ∧
       (∀ t ∈ pruneWindow 1000 60000 [500], oldest ≤ t) ∧
       (admissionCheck 1 60000 1000 [500]).retryAfter =
         some ((60000 - (1000 - oldest) + 999) / 1000)) :=
  ⟨by decide, by decide, by decide,
    admission_reject_spec 1 60000 1000 [500] (by decide) (by decide) (by decide)⟩

/-- C6: exempt identities (the configured owner id, or a member of the
configured admin id set) always pass the flood-control middleware with no
bookkeeping: the request proceeds, the rate-limit map is untouched and no
log record is emitted — regardless of the map contents, i.e. of any prior
call frequency; moreover, replaying any trace of requests from an empty map
leaves no map entry keyed by an exempt identity. -/
theorem floodControl_exempt_spec (cfg : BotConfig) :
    (∀ (uid : Int) (replyOk : Bool) (now : Nat) (st : FloodState),
       isExemptUser cfg uid = true →
       floodControl cfg (some uid) replyOk now st = (.proceed, st, [])) ∧
    (∀ (calls : List (Int × Nat)),
       ∀ k ∈ (runFloodTrace cfg calls []).map Prod.fst,
         isExemptUser cfg k = false) := by
  constructor
  · intro uid replyOk now st hex
    simp only [floodControl]
    rw [if_pos hex]
  · intro calls
    exact runFloodTrace_keys cfg calls [] (by simp)

theorem floodControl_exempt_spec_witness :
    isExemptUser ⟨1, [2], 5, 60000⟩ 2 = true ∧
    floodControl ⟨1, [2], 5, 60000⟩ (some 2) true 0 [(3, [0])] =
      (.proceed, [(3, [0])], []) ∧
    ∀ k ∈ (runFloodTrace ⟨1, [2], 5, 60000⟩ [(1, 0), (3, 1), (2, 2)] []).map
        Prod.fst, isExemptUser ⟨1, [2], 5, 60000⟩ k = false :=
  ⟨by decide,
   (floodControl_exempt_spec ⟨1, [2], 5, 60000⟩).1 2 true 0 [(3, [0])] (by decide),
   (floodControl_exempt_spec ⟨1, [2], 5, 60000⟩).2 [(1, 0), (3, 1), (2, 2)]⟩

/-- C7: whenever the flood-control middleware body throws an internal error
(a missing `ctx.from`, or the cooldown reply rejecting), the `catch` block
fails open: the request proceeds to the next pipeline stage instead of being
blocked, and a `middleware_error` anomaly record is logged. -/
theorem floodControl_fail_open (cfg : BotConfig) (fromId? : Option Int)
    (replyOk : Bool) (now : Nat) (st : FloodState)
    (herr : floodControlThrows cfg fromId? replyOk now st = true) :
    (floodControl cfg fromId? replyOk now st).1 = .proceed ∧
    ∃ u, LogRecord.middlewareError "floodControl" u ∈
      (floodControl cfg fromId? replyOk now st).2.2 := by
  match fromId? with
  | none =>
    exact ⟨rfl, none, by simp [floodControl]⟩
  | some uid =>
    simp only [floodControlThrows] at herr
    simp only [floodControl]
    by_cases hex : isExemptUser cfg uid
    · rw [if_pos hex] at herr; exact absurd herr (by simp)
    · rw [if_neg hex] at herr
      rw [if_neg hex]
      by_cases hall : (admissionCheck cfg.maxRequests cfg.timeWindow now
          (mapGet (if mapHas st uid then st else mapSet st uid []) uid)).allowed
      · rw [if_pos hall] at herr; exact absurd herr (by simp)
      · rw [if_neg hall] at herr
        rw [if_neg hall]
        simp only [Bool.not_eq_true'] at herr
        rw [herr]
        exact ⟨rfl, some uid, by simp⟩

theorem floodControl_fail_open_witness :
    floodControlThrows ⟨1, [], 5, 60000⟩ none true 0 [] = true ∧
    ((floodControl ⟨1, [], 5, 60000⟩ none true 0 []).1 = .proceed ∧
     ∃ u, LogRecord.middlewareError "floodControl" u ∈
       (floodControl ⟨1, [], 5, 60000⟩ none true 0 []).2.2) :=
  ⟨rfl, floodControl_fail_open ⟨1, [], 5, 60000⟩ none true 0 [] rfl⟩

/-- C8: the `isAdmin` gate classifies the caller as owner iff their id
equals the configured owner id and as admin iff they are owner or a member
of the configured admin id set; the router composition invokes the guarded
handler exactly when the caller is admin, and otherwise emits an
`unauthorized_access` log event, sends the fixed denial reply, and never
executes the handler body. -/
theorem isAdmin_gate_spec (cfg : BotConfig) (uid : Int) (command : String)
    (handlerLogs : List LogRecord) (handlerReplies : List String) :
    ((isAdmin cfg uid command).isOwnerFlag = true ↔ uid = cfg.ownerId) ∧
    ((isAdmin cfg uid command).isAdminFlag = true ↔
      (uid = cfg.ownerId ∨ uid ∈ cfg.admins)) ∧
    ((guardedExecute cfg uid command handlerLogs handlerReplies).1 = true ↔
      (uid = cfg.ownerId ∨ uid ∈ cfg.admins)) ∧
    (¬(uid = cfg.ownerId ∨ uid ∈ cfg.admins) →
      guardedExecute cfg uid command handlerLogs handlerReplies =
        (false, [.unauthorizedAccess uid command], [accessDeniedMessage])) := by
  by_cases h1 : uid = cfg.ownerId
  · simp [isAdmin, guardedExecute, h1]
  · by_cases h2 : uid ∈ cfg.admins
    · simp [isAdmin, guardedExecute, h1, h2]
    · simp [isAdmin, guardedExecute, h1, h2]

theorem isAdmin_gate_spec_witness :
    ¬((3 : Int) = 1 ∨ (3 : Int) ∈ ([2] : List Int)) ∧
    guardedExecute ⟨1, [2], 5, 60000⟩ 3 "/broadcast" [] [] =
      (false, [.unauthorizedAccess 3 "/broadcast"], [accessDeniedMessage]) :=
  ⟨by decide,
   (isAdmin_gate_spec ⟨1, [2], 5, 60000⟩ 3 "/broadcast" [] []).2.2.2 (by decide)⟩

/-- C9 (counterexample to the claim as stated): with owner id 1, admin set
`[2]` and caller 2 — an admin who is not the owner — the shutdown handler
does deny, but it emits no log record at all, so no "unauthorized access"
log event exists; the claim's conjunct about the log event is false at this
input. -/
theorem shutdown_claim_counterexample :
    (((2 : Int) = 1 ∨ (2 : Int) ∈ ([2] : List Int)) ∧ (2 : Int) ≠ 1) ∧
    ¬(shutdownExecute 1 2 = [.reply shutdownDenialMessage] ∧
      Effect.exitProcess ∉ shutdownExecute 1 2 ∧
      ∃ u c, Effect.logged (LogRecord.unauthorizedAccess u c) ∈
        shutdownExecute 1 2) := by
  refine ⟨⟨Or.inr (by decide), by decide⟩, ?_⟩
  rintro ⟨-, -, u, c, hmem⟩
  have h2 : shutdownExecute 1 2 = [.reply shutdownDenialMessage] := rfl
  rw [h2] at hmem
  simp at hmem

/-- C9 (amended): for every caller whose id differs from the configured
owner id — in particular every admin who is not the owner — the shutdown
handler returns only the fixed denial reply, never reaches the shutdown body
(no `process.exit` effect), and emits no log record at all (in particular,
no "unauthorized access" log event). -/
theorem shutdown_nonowner_denied (ownerId uid : Int) (h : uid ≠ ownerId) :
    shutdownExecute ownerId uid = [.reply shutdownDenialMessage] ∧
    Effect.exitProcess ∉ shutdownExecute ownerId uid ∧
    ∀ r : LogRecord, Effect.logged r ∉ shutdownExecute ownerId uid := by
  have he : shutdownExecute ownerId uid = [.reply shutdownDenialMessage] := by
    unfold shutdownExecute
    rw [if_pos (by simpa [bne_iff_ne] using h)]
  refine ⟨he, ?_, ?_⟩
  · rw [he]; simp
  · intro r; rw [he]; simp

theorem shutdown_nonowner_denied_witness :
    (2 : Int) ≠ 1 ∧
    (shutdownExecute 1 2 = [.reply shutdownDenialMessage] ∧
     Effect.exitProcess ∉ shutdownExecute 1 2 ∧
     ∀ r : LogRecord, Effect.logged r ∉ shutdownExecute 1 2) :=
  ⟨by decide, shutdown_nonowner_denied 1 2 (by decide)⟩

/-- C10: each append through the log sink caps the stored sequence at
`maxLogsPerFile = 10000` entries: the result has `min (n + 1) 10000` entries
where `n` was the previous length, is never longer than 10000, and equals
the pushed sequence with its oldest surplus entries discarded — so only the
most recent 10000 records are kept and the sink is not truly append-only. -/
theorem logger_log_capped (logs : List α) (e : α) :
    (Logger.log logs e).length = min (logs.length + 1) Logger.maxLogsPerFile ∧
    (Logger.log logs e).length ≤ Logger.maxLogsPerFile ∧
    Logger.log logs e =
      (logs ++ [e]).drop (logs.length + 1 - Logger.maxLogsPerFile) := by
  have hl : (logs ++ [e]).length = logs.length + 1 := by simp
  unfold Logger.log
  by_cases h : Logger.maxLogsPerFile < (logs ++ [e]).length
  · rw [if_pos h]
    rw [hl] at h ⊢
    refine ⟨?_, ?_, rfl⟩ <;> simp [List.length_drop] <;> omega
  · rw [if_neg h]
    rw [hl] at h
    push_neg at h
    refine ⟨?_, ?_, ?_⟩
    · rw [hl]; omega
    · rw [hl]; omega
    · rw [show logs.length + 1 - Logger.maxLogsPerFile = 0 by omega, List.drop_zero]

theorem broadcastExecute_fields (batchSize : Nat) (recipients : List Int)
    (message : String) (sendOk : Int → Bool) (reason : Int → String)
    (editOk : Nat → Bool) (finalEditOk : Bool) (adminId : Int)
    (completionTime : Nat) (hbs : 0 < batchSize) (hne : recipients ≠ []) :
    (broadcastExecute batchSize recipients message sendOk reason editOk
      finalEditOk adminId completionTime).successCount =
        (recipients.filter (fun u => sendOk u)).length ∧
    (broadcastExecute batchSize recipients message sendOk reason editOk
      finalEditOk adminId completionTime).failureCount =
        (recipients.filter (fun u => !sendOk u)).length ∧
    (broadcastExecute batchSize recipients message sendOk reason editOk
      finalEditOk adminId completionTime).processedCount = recipients.length ∧
    (broadcastExecute batchSize recipients message sendOk reason editOk
      finalEditOk adminId completionTime).sendCalls = recipients ∧
    (broadcastExecute batchSize recipients message sendOk reason editOk
      finalEditOk adminId completionTime).logs =
        (recipients.filter (fun u => !sendOk u)).map
          (fun u => LogRecord.deliveryFailed u (reason u)) ++
        (if finalEditOk then
          [LogRecord.broadcastCompleted adminId recipients.length
            ((recipients.filter (fun u => sendOk u)).length)
            ((recipients.filter (fun u => !sendOk u)).length)
            completionTime message]
         else [LogRecord.adminCommandError "/broadcast" (some adminId)]) := by
  obtain ⟨b, rfl⟩ : ∃ b, batchSize = b + 1 := ⟨batchSize - 1, by omega⟩
  unfold broadcastExecute
  rw [if_neg (by simpa using hne)]
  have hcore : (runBatches sendOk reason editOk (mkBatches (b + 1) recipients)
      0 initialBroadcastState).core =
      (recipients.foldl (processRecipient sendOk reason)
        initialBroadcastState).core := by
    have h1 := runBatches_core_congr sendOk reason editOk (fun _ => false)
      (mkBatches (b + 1) recipients) 0 0 initialBroadcastState
      initialBroadcastState rfl
    rw [runBatches_noedit_eq_foldl, mkBatches_flatten] at h1
    exact h1
  simp only [BroadcastState.core, Prod.mk.injEq] at hcore
  obtain ⟨hsucc, hfail, hproc, hcalls, hlogs⟩ := hcore
  obtain ⟨f1, f2, f3, f4, f5⟩ :=
    foldl_processRecipient_spec sendOk reason recipients initialBroadcastState
  rw [f1] at hsucc
  rw [f2] at hfail
  rw [f3] at hproc
  rw [f4] at hcalls
  rw [f5] at hlogs
  rw [show initialBroadcastState.successCount = 0 from rfl, Nat.zero_add] at hsucc
  rw [show initialBroadcastState.failureCount = 0 from rfl, Nat.zero_add] at hfail
  rw [show initialBroadcastState.processedCount = 0 from rfl, Nat.zero_add] at hproc
  rw [show initialBroadcastState.sendCalls = [] from rfl, List.nil_append] at hcalls
  rw [show initialBroadcastState.logs = [] from rfl, List.nil_append] at hlogs
  cases finalEditOk with
  | true =>
    refine ⟨hsucc, hfail, hproc, hcalls, ?_⟩
    show (runBatches sendOk reason editOk (mkBatches (b + 1) recipients) 0
        initialBroadcastState).logs ++
        [LogRecord.broadcastCompleted adminId recipients.length
          (runBatches sendOk reason editOk (mkBatches (b + 1) recipients) 0
            initialBroadcastState).successCount
          (runBatches sendOk reason editOk (mkBatches (b + 1) recipients) 0
            initialBroadcastState).failureCount completionTime message] = _
    rw [hlogs, hsucc, hfail]
    rfl
  | false =>
    refine ⟨hsucc, hfail, hproc, hcalls, ?_⟩
    show (runBatches sendOk reason editOk (mkBatches (b + 1) recipients) 0
        initialBroadcastState).logs ++
        [LogRecord.adminCommandError "/broadcast" (some adminId)] = _
    rw [hlogs]
    rfl

/-- C1: for every recipient list (including the empty one) and every
`batchSize > 0`, the broadcast dispatcher partitions the recipients in
snapshot order into consecutive nonempty batches of at most `batchSize`
elements (the source's own batch size being the constant 30), processes the
batches sequentially, calls the send function exactly once per recipient in
snapshot order (no duplicates, no omissions, zero calls for zero
recipients), and the final tally satisfies `delivered + failed = number of
recipients` — for every outcome of the progress and final status-message
edits. -/
theorem broadcast_partition_tally (batchSize : Nat) (recipients : List Int)
    (message : String) (sendOk : Int → Bool) (reason : Int → String)
    (editOk : Nat → Bool) (finalEditOk : Bool) (adminId : Int)
    (completionTime : Nat) (hbs : 0 < batchSize) :
    (mkBatches batchSize recipients).flatten = recipients ∧
    (∀ batch ∈ mkBatches batchSize recipients,
      batch ≠ [] ∧ batch.length ≤ batchSize) ∧
    (broadcastExecute batchSize recipients message sendOk reason editOk
      finalEditOk adminId completionTime).sendCalls = recipients ∧
    (broadcastExecute batchSize recipients message sendOk reason editOk
        finalEditOk adminId completionTime).successCount +
      (broadcastExecute batchSize recipients message sendOk reason editOk
        finalEditOk adminId completionTime).failureCount = recipients.length ∧
    broadcastBatchSize = 30 := by
  obtain ⟨b, rfl⟩ : ∃ b, batchSize = b + 1 := ⟨batchSize - 1, by omega⟩
  refine ⟨mkBatches_flatten b recipients, mkBatches_sizes b recipients, ?_⟩
  by_cases hemp : recipients = []
  · subst hemp
    exact ⟨rfl, rfl, rfl⟩
  · obtain ⟨h1, h2, h3, h4, h5⟩ := broadcastExecute_fields (b + 1) recipients
      message sendOk reason editOk finalEditOk adminId completionTime
      (by omega) hemp
    refine ⟨h4, ?_, rfl⟩
    rw [h1, h2]
    exact filter_length_partition (fun u => sendOk u) recipients

theorem broadcast_partition_tally_witness :
    0 < 2 ∧
    ((mkBatches 2 ([1, 2, 3] : List Int)).flatten = [1, 2, 3] ∧
     (∀ batch ∈ mkBatches 2 ([1, 2, 3] : List Int),
       batch ≠ [] ∧ batch.length ≤ 2) ∧
     (broadcastExecute 2 [1, 2, 3] "hello" (fun u => u != 2) (fun _ => "blocked")
       (fun _ => true) true 7 42).sendCalls = [1, 2, 3] ∧
     (broadcastExecute 2 [1, 2, 3] "hello" (fun u => u != 2) (fun _ => "blocked")
         (fun _ => true) true 7 42).successCount +
       (broadcastExecute 2 [1, 2, 3] "hello" (fun u => u != 2) (fun _ => "blocked")
         (fun _ => true) true 7 42).failureCount = ([1, 2, 3] : List Int).length ∧
     broadcastBatchSize = 30) :=
  ⟨by decide,
   broadcast_partition_tally 2 [1, 2, 3] "hello" (fun u => u != 2)
     (fun _ => "blocked") (fun _ => true) true 7 42 (by decide)⟩

/-- C2: for every broadcast job, a send failure for one recipient is caught
locally: the delivered count is exactly the number of recipients whose send
succeeded, the failed count exactly the number whose send failed, and the
`broadcast_delivery_failed` log records are exactly one per failed
recipient, in order, carrying that recipient's id and failure reason — so a
failure never aborts the job or changes the outcome of any other recipient,
for every outcome of the final status-message edit. -/
theorem broadcast_failure_isolation (batchSize : Nat) (recipients : List Int)
    (message : String) (sendOk : Int → Bool) (reason : Int → String)
    (editOk : Nat → Bool) (finalEditOk : Bool) (adminId : Int)
    (completionTime : Nat) (hbs : 0 < batchSize) :
    (broadcastExecute batchSize recipients message sendOk reason editOk
      finalEditOk adminId completionTime).successCount =
        (recipients.filter (fun u => sendOk u)).length ∧
    (broadcastExecute batchSize recipients message sendOk reason editOk
      finalEditOk adminId completionTime).failureCount =
        (recipients.filter (fun u => !sendOk u)).length ∧
    ((broadcastExecute batchSize recipients message sendOk reason editOk
      finalEditOk adminId completionTime).logs).filter isDeliveryFailedRec =
        (recipients.filter (fun u => !sendOk u)).map
          (fun u => LogRecord.deliveryFailed u (reason u)) := by
  by_cases hne : recipients = []
  · subst hne
    refine ⟨rfl, rfl, rfl⟩
  · obtain ⟨h1, h2, h3, h4, h5⟩ := broadcastExecute_fields batchSize recipients
      message sendOk reason editOk finalEditOk adminId completionTime hbs hne
    refine ⟨h1, h2, ?_⟩
    rw [h5, List.filter_append]
    rw [List.filter_eq_self.mpr (by
      intro a ha
      obtain ⟨u, hu, rfl⟩ := List.mem_map.mp ha
      rfl)]
    cases finalEditOk <;> simp [isDeliveryFailedRec]

theorem broadcast_failure_isolation_witness :
    0 < 2 ∧
    ((broadcastExecute 2 [1, 2, 3] "hello" (fun u => u != 2)
      (fun _ => "blocked") (fun _ => true) true 7 42).successCount =
        (([1, 2, 3] : List Int).filter (fun u => (fun v => v != 2) u)).length ∧
     (broadcastExecute 2 [1, 2, 3] "hello" (fun u => u != 2)
      (fun _ => "blocked") (fun _ => true) true 7 42).failureCount =
        (([1, 2, 3] : List Int).filter (fun u => !(fun v => v != 2) u)).length ∧
     ((broadcastExecute 2 [1, 2, 3] "hello" (fun u => u != 2)
      (fun _ => "blocked") (fun _ => true) true 7 42).logs).filter
        isDeliveryFailedRec =
        (([1, 2, 3] : List Int).filter (fun u => !(fun v => v != 2) u)).map
          (fun u => LogRecord.deliveryFailed u ((fun _ => "blocked") u))) :=
  ⟨by decide,
   broadcast_failure_isolation 2 [1, 2, 3] "hello" (fun u => u != 2)
     (fun _ => "blocked") (fun _ => true) true 7 42 (by decide)⟩

/-- C4 (counterexample to the claim as stated): a broadcast over `[1]` where
every send succeeds and the per-batch progress edits succeed, but the final
status-message edit fails.  The final `editMessageText` (broadcast.js lines
226–232) is NOT inside its own `try`/`catch`, so its throw reaches the outer
catch (line 247): the job does run all batches to completion (one send call,
to recipient 1), yet no `broadcast_completed` summary record is emitted —
an `admin_command_error` record is logged instead.  This refutes "a failure
of any progress report (status-message edit) is swallowed … and emits
exactly one final summary log record" at this input. -/
theorem broadcast_final_edit_counterexample :
    (broadcastExecute 2 [1] "hello" (fun _ => true) (fun _ => "e")
      (fun _ => true) false 7 42).sendCalls = [1] ∧
    (broadcastExecute 2 [1] "hello" (fun _ => true) (fun _ => "e")
      (fun _ => true) false 7 42).logs =
      [LogRecord.adminCommandError "/broadcast" (some 7)] ∧
    ¬∃ r, isBroadcastCompletedRec r = true ∧
      r ∈ (broadcastExecute 2 [1] "hello" (fun _ => true) (fun _ => "e")
        (fun _ => true) false 7 42).logs := by
  obtain ⟨h1, h2, h3, h4, h5⟩ := broadcastExecute_fields 2 [1] "hello"
    (fun _ => true) (fun _ => "e") (fun _ => true) false 7 42 (by decide)
    (by decide)
  have hlogs : (broadcastExecute 2 [1] "hello" (fun _ => true) (fun _ => "e")
      (fun _ => true) false 7 42).logs =
      [LogRecord.adminCommandError "/broadcast" (some 7)] := by
    rw [h5]
    rfl
  refine ⟨h4, hlogs, ?_⟩
  rintro ⟨r, hr, hmem⟩
  rw [hlogs] at hmem
  simp only [List.mem_singleton] at hmem
  subst hmem
  simp [isBroadcastCompletedRec] at hr

/-- C4 (amended): for every broadcast job over a non-empty recipient list, a
failure of any per-batch progress report (the status-message edits inside
the batch loop, each guarded by its own `try`/`catch`, broadcast.js lines
197–207) is swallowed: the claim-relevant outcome (`BroadcastState.core`:
tally, processed count, send calls, log records) is identical for any two
per-batch progress-edit success patterns, and the job still issues the send
calls for all recipients of all batches.  When the final status-message
edit succeeds, exactly one `broadcast_completed` summary record is emitted,
carrying the total recipient count, the delivered and failed counts, the
elapsed time and the message content; when that final edit fails, the
summary record is skipped and the outer catch logs an `admin_command_error`
record instead. -/
theorem broadcast_progress_swallowed (batchSize : Nat) (recipients : List Int)
    (message : String) (sendOk : Int → Bool) (reason : Int → String)
    (editOk editOk' : Nat → Bool) (finalEditOk : Bool) (adminId : Int)
    (completionTime : Nat) (hbs : 0 < batchSize) (hne : recipients ≠ []) :
    (broadcastExecute batchSize recipients message sendOk reason editOk
      finalEditOk adminId completionTime).core =
      (broadcastExecute batchSize recipients message sendOk reason editOk'
        finalEditOk adminId completionTime).core ∧
    (broadcastExecute batchSize recipients message sendOk reason editOk
      finalEditOk adminId completionTime).sendCalls = recipients ∧
    (finalEditOk = true →
      ((broadcastExecute batchSize recipients message sendOk reason editOk
        finalEditOk adminId completionTime).logs).filter
          isBroadcastCompletedRec =
        [LogRecord.broadcastCompleted adminId recipients.length
          (broadcastExecute batchSize recipients message sendOk reason editOk
            finalEditOk adminId completionTime).successCount
          (broadcastExecute batchSize recipients message sendOk reason editOk
            finalEditOk adminId completionTime).failureCount
          completionTime message]) ∧
    (finalEditOk = false →
      ((broadcastExecute batchSize recipients message sendOk reason editOk
        finalEditOk adminId completionTime).logs).filter
          isBroadcastCompletedRec = [] ∧
      LogRecord.adminCommandError "/broadcast" (some adminId) ∈
        (broadcastExecute batchSize recipients message sendOk reason editOk
          finalEditOk adminId completionTime).logs) := by
  obtain ⟨a1, a2, a3, a4, a5⟩ := broadcastExecute_fields batchSize recipients
    message sendOk reason editOk finalEditOk adminId completionTime hbs hne
  obtain ⟨b1, b2, b3, b4, b5⟩ := broadcastExecute_fields batchSize recipients
    message sendOk reason editOk' finalEditOk adminId completionTime hbs hne
  have hmapnil : ((recipients.filter (fun u => !sendOk u)).map
      (fun u => LogRecord.deliveryFailed u (reason u))).filter
        isBroadcastCompletedRec = [] := by
    rw [List.filter_eq_nil_iff]
    intro a ha
    obtain ⟨u, hu, rfl⟩ := List.mem_map.mp ha
    simp [isBroadcastCompletedRec]
  refine ⟨?_, a4, ?_, ?_⟩
  · simp only [BroadcastState.core]
    rw [a1, a2, a3, a4, a5, b1, b2, b3, b4, b5]
  · intro hfe
    subst hfe
    rw [if_pos rfl] at a5
    rw [a1, a2, a5, List.filter_append, hmapnil]
    simp [isBroadcastCompletedRec]
  · intro hfe
    subst hfe
    rw [if_neg (by simp)] at a5
    constructor
    · rw [a5, List.filter_append, hmapnil]
      simp [isBroadcastCompletedRec]
    · rw [a5]
      exact List.mem_append.mpr (Or.inr (by simp))

theorem broadcast_progress_swallowed_witness :
    0 < 2 ∧ ([1, 2, 3] : List Int) ≠ [] ∧
    (broadcastExecute 2 [1, 2, 3] "hello" (fun u => u != 2)
        (fun _ => "blocked") (fun _ => true) true 7 42).core =
      (broadcastExecute 2 [1, 2, 3] "hello" (fun u => u != 2)
        (fun _ => "blocked") (fun _ => false) true 7 42).core ∧
    (broadcastExecute 2 [1, 2, 3] "hello" (fun u => u != 2)
      (fun _ => "blocked") (fun _ => true) true 7 42).sendCalls = [1, 2, 3] ∧
    ((broadcastExecute 2 [1, 2, 3] "hello" (fun u => u != 2)
      (fun _ => "blocked") (fun _ => true) true 7 42).logs).filter
        isBroadcastCompletedRec =
      [LogRecord.broadcastCompleted 7 ([1, 2, 3] : List Int).length
        (broadcastExecute 2 [1, 2, 3] "hello" (fun u => u != 2)
          (fun _ => "blocked") (fun _ => true) true 7 42).successCount
        (broadcastExecute 2 [1, 2, 3] "hello" (fun u => u != 2)
          (fun _ => "blocked") (fun _ => true) true 7 42).failureCount
        42 "hello"] :=
  ⟨by decide, by decide,
   (broadcast_progress_swallowed 2 [1, 2, 3] "hello" (fun u => u != 2)
     (fun _ => "blocked") (fun _ => true) (fun _ => false) true 7 42
     (by decide) (by decide)).1,
   (broadcast_progress_swallowed 2 [1, 2, 3] "hello" (fun u => u != 2)
     (fun _ => "blocked") (fun _ => true) (fun _ => false) true 7 42
     (by decide) (by decide)).2.1,
   (broadcast_progress_swallowed 2 [1, 2, 3] "hello" (fun u => u != 2)
     (fun _ => "blocked") (fun _ => true) (fun _ => false) true 7 42
     (by decide) (by decide)).2.2.1 rfl⟩

theorem runAdmissions_cons_reject (m w now : Nat) (rest S : List Nat)
    (hrej : m ≤ (pruneWindow now w S).length) :
    (runAdmissions m w (now :: rest) S).2 = (runAdmissions m w rest S).2 := by
  rw [runAdmissions_cons, admissionCheck_reject m w now S hrej]
  simp

theorem runAdmissions_cons_allow (m w now : Nat) (rest S : List Nat)
    (hallow : (pruneWindow now w S).length < m) :
    (runAdmissions m w (now :: rest) S).2 =
      now :: (runAdmissions m w rest (pruneWindow now w S ++ [now])).2 := by
  rw [runAdmissions_cons, admissionCheck_allow m w now S hallow]
  simp

theorem pruneWindow_mono (b now w : Nat) (hbn : b ≤ now) (A : List Nat) :
    pruneWindow now w A =
      (pruneWindow b w A).filter (fun t => decide (now - t < w)) := by
  unfold pruneWindow
  rw [List.filter_filter]
  apply List.filter_congr
  intro a _
  by_cases h : now - a < w
  · have hb : b - a < w := lt_of_le_of_lt (Nat.sub_le_sub_right hbn a) h
    simp [h, hb]
  · simp [h]


theorem runAdmissions_window_inv (maxRequests timeWindow : Nat)
    (hmax : 0 < maxRequests) (hwin : 0 < timeWindow) :
    ∀ (times S A : List Nat) (b : Nat),
      List.Chain (· ≤ ·) b times →
      (∀ a ∈ A, a ≤ b) →
      S.Sublist A →
      (pruneWindow b timeWindow A).Sublist S →
      (∀ T, A.countP (inWindow timeWindow T) ≤ maxRequests) →
      ∀ T, (A ++ (runAdmissions maxRequests timeWindow times S).2).countP
          (inWindow timeWindow T) ≤ maxRequests
  | [], S, A, b, _, _, _, _, hgoal, T => by
    simpa [runAdmissions] using hgoal T
  | now :: rest, S, A, b, hchain, hA, hSA, hrec, hgoal, T => by
    have hbn : b ≤ now := (List.chain_cons.mp hchain).1
    have hchain' : List.Chain (· ≤ ·) now rest := (List.chain_cons.mp hchain).2
    have hA' : ∀ a ∈ A, a ≤ now := fun a ha => le_trans (hA a ha) hbn
    have hprA : pruneWindow now timeWindow A =
        (pruneWindow b timeWindow A).filter
          (fun t => decide (now - t < timeWindow)) :=
      pruneWindow_mono b now timeWindow hbn A
    by_cases hrej : maxRequests ≤ (pruneWindow now timeWindow S).length
    · rw [runAdmissions_cons_reject maxRequests timeWindow now rest S hrej]
      have hrec' : (pruneWindow now timeWindow A).Sublist S := by
        rw [hprA]
        exact (List.filter_sublist _).trans hrec
      exact runAdmissions_window_inv maxRequests timeWindow hmax hwin rest S A
        now hchain' hA' hSA hrec' hgoal T
    · push_neg at hrej
      rw [runAdmissions_cons_allow maxRequests timeWindow now rest S hrej]
      rw [List.append_cons]
      have hA'' : ∀ a ∈ A ++ [now], a ≤ now := by
        intro a ha
        rcases List.mem_append.mp ha with h | h
        · exact hA' a h
        · simp at h; omega
      have hSA' : (pruneWindow now timeWindow S ++ [now]).Sublist (A ++ [now]) :=
        List.Sublist.append ((List.filter_sublist _).trans hSA)
          (List.Sublist.refl [now])
      have hsubA : (pruneWindow now timeWindow A).Sublist
          (pruneWindow now timeWindow S) := by
        rw [hprA]
        exact hrec.filter _
      have hprApp : pruneWindow now timeWindow (A ++ [now]) =
          pruneWindow now timeWindow A ++ [now] := by
        unfold pruneWindow
        rw [List.filter_append]
        congr 1
        simp [hwin]
      have hrec'' : (pruneWindow now timeWindow (A ++ [now])).Sublist
          (pruneWindow now timeWindow S ++ [now]) := by
        rw [hprApp]
        exact List.Sublist.append hsubA (List.Sublist.refl [now])
      have hgoal' : ∀ T', (A ++ [now]).countP (inWindow timeWindow T') ≤
          maxRequests := by
        intro T'
        rw [List.countP_append]
        by_cases hin : inWindow timeWindow T' now
        · have hnowT : now ≤ T' ∧ T' < now + timeWindow := by
            simpa [inWindow, Bool.and_eq_true, decide_eq_true_eq] using hin
          have s1 : A.countP (inWindow timeWindow T') =
              (pruneWindow b timeWindow A).countP (inWindow timeWindow T') := by
            unfold pruneWindow
            rw [List.countP_filter]
            apply List.countP_congr
            intro a _
            by_cases hwa : inWindow timeWindow T' a
            · have h2 : a ≤ T' ∧ T' < a + timeWindow := by
                simpa [inWindow, Bool.and_eq_true, decide_eq_true_eq] using hwa
              have hba : b - a < timeWindow := by omega
              simp [hwa, hba]
            · simp [hwa]
          have s2 : (pruneWindow b timeWindow A).countP (inWindow timeWindow T')
              ≤ S.countP (inWindow timeWindow T') :=
            hrec.countP_le (inWindow timeWindow T')
          have s3 : S.countP (inWindow timeWindow T') ≤
              S.countP (fun t => decide (now - t < timeWindow)) := by
            apply List.countP_mono_left
            intro t _ hwt
            have h2 : t ≤ T' ∧ T' < t + timeWindow := by
              simpa [inWindow, Bool.and_eq_true, decide_eq_true_eq] using hwt
            have : now - t < timeWindow := by omega
            simpa using this
          have s4 : S.countP (fun t => decide (now - t < timeWindow)) =
              (pruneWindow now timeWindow S).length := by
            rw [List.countP_eq_length_filter]
            rfl
          have hc1 : List.countP (inWindow timeWindow T') [now] = 1 := by
            simp [List.countP_cons, hin]
          rw [hc1]
          omega
        · have hc0 : List.countP (inWindow timeWindow T') [now] = 0 := by
            simp only [List.countP_cons, List.countP_nil]
            simp [hin]
          rw [hc0]
          simpa using hgoal T'
      exact runAdmissions_window_inv maxRequests timeWindow hmax hwin rest
        (pruneWindow now timeWindow S ++ [now]) (A ++ [now]) now hchain' hA''
        hSA' hrec'' hgoal' T

/-- C3: for every sequence of admission checks by the same non-exempt user
(with `maxRequests > 0` and `windowDurationMs > 0`), started from an empty
history and performed at nondecreasing clock times, the number of allowed
checks whose timestamps fall in any trailing window of `windowDurationMs`
milliseconds never exceeds `maxRequests`. -/
theorem admission_window_never_exceeded (maxRequests timeWindow : Nat)
    (hmax : 0 < maxRequests) (hwin : 0 < timeWindow)
    (times : List Nat) (hmono : times.Chain' (· ≤ ·)) (T : Nat) :
    ((runAdmissions maxRequests timeWindow times []).2).countP
      (inWindow timeWindow T) ≤ maxRequests := by
  have hchain : List.Chain (· ≤ ·) 0 times := by
    cases times with
    | nil => exact List.Chain.nil
    | cons a l => exact List.Chain.cons (Nat.zero_le a) hmono
  have h := runAdmissions_window_inv maxRequests timeWindow hmax hwin times
    [] [] 0 hchain (by simp) (List.Sublist.refl []) (by simp [pruneWindow]) 
    (by intro T'; simp) T
  simpa using h

theorem admission_window_never_exceeded_witness :
    0 < 2 ∧ 0 < 1000 ∧ List.Chain' (· ≤ ·) [0, 100, 200, 1500] ∧
    ((runAdmissions 2 1000 [0, 100, 200, 1500] []).2).countP
      (inWindow 1000 1500) ≤ 2 :=
  ⟨by decide, by decide, by simp [List.chain'_cons],
   admission_window_never_exceeded 2 1000 (by decide) (by decide)
     [0, 100, 200, 1500] (by simp [List.chain'_cons]) 1500⟩
